import Mathlib

/-!
Formal model of the retrieval core of the `youagent` repository:

* `packages/index/src/sqlite-vss.ts` — the `SqliteVssIndex` vector store
  (`upsert`, `search`, `delete`, `deleteAll`, `count`) and the
  `cosineSimilarity` helper;
* `packages/agent/src/context.ts` — `pickContext`, the context selector;
* the intent module — `classifyIntent` / `needsFreshData` / `makePlan`,
  the rule-based retrieval planner.

Modelling conventions:

* JavaScript numbers are modelled as real numbers (`ℝ`); the one IEEE-754
  artefact that matters to the claims — `0 / 0 = NaN` inside
  `cosineSimilarity` — is modelled explicitly: the similarity score has type
  `Option ℝ`, and `none` stands for NaN, produced exactly when the divisor
  `Math.sqrt(normA) * Math.sqrt(normB)` is zero (in which case the dividend
  is also zero, so the JS code produces `0 / 0 = NaN`).
* The SQLite table behind the store is modelled as a list of rows in rowid
  order.  `INSERT OR REPLACE` deletes the conflicting row and appends the
  fresh row at the end (a replaced row receives a new, maximal rowid), and
  the unordered `SELECT` in `search` yields the rows in that order.
* Thrown exceptions are modelled with `Except`: `IndexError` carries the
  message of the `IndexError` class from `packages/utils/src/errors.ts`
  (the `cause` payload is not modelled), and the plain `Error` thrown by
  `cosineSimilarity` is modelled as `Except String`.
* `Array.prototype.sort` with the comparator `(a, b) => b.score - a.score`
  is modelled as a stable insertion sort for the "descending score" order;
  per ECMA-262 a NaN comparator result is coerced to `+0`, i.e. the two
  elements compare as equal, which `scoreGe` reflects by making `none`
  compare `≥` against everything.  For score lists without NaN the
  comparator is consistent and every stable sort (including the engine's)
  produces this exact output.
* `Array.prototype.slice(0, k)` keeps JavaScript's negative-index
  semantics: a negative `k` is clamped to `max(length + k, 0)`.
* Strings are Lean `String`s; `toLowerCase` maps `Char.toLower` over the
  characters and `String.prototype.includes` is a substring test.
-/

namespace YouAgent

open scoped Classical

set_option linter.unusedVariables false

/-! ## Vector index model (`packages/index/src/sqlite-vss.ts`) -/

/-- Model of the `IndexError` class of `packages/utils/src/errors.ts`
(message only; the `cause`/`details` payload is opaque and not modelled). -/
structure IndexError where
  message : String
deriving DecidableEq

/-- Model of the `IndexDocument` interface of `packages/index/src/types.ts`.
`metadata` is kept in its serialized form (`JSON.stringify` output),
since the store never interprets it. -/
structure IndexDocument where
  id : String
  text : String
  metadata : Option String

/-- One row of the `vector_index` SQLite table:
`(id TEXT PRIMARY KEY, embedding TEXT NOT NULL, metadata TEXT)`.
The embedding is stored as the parsed vector (JSON round-trip is the
identity on number lists). -/
structure StoredRow where
  id : String
  embedding : List ℝ
  metadata : Option String

/-- Model of the `SqliteVssIndex` class.  `dimension` is the constructor
argument (default 768); `rows` is the table contents in rowid order. -/
structure SqliteVssIndex where
  dimension : ℕ
  rows : List StoredRow

/-- Model of the `SearchResult` interface: `score` is `none` when the
JS computation produced NaN. -/
structure SearchResult where
  id : String
  score : Option ℝ
  metadata : Option String

/-- `dotProduct` accumulator of `cosineSimilarity`: `Σ a[i] * b[i]`
(the loop runs over equal-length vectors; the caller checks this first). -/
def dotList (a b : List ℝ) : ℝ := (List.zipWith (fun x y => x * y) a b).sum

/-- `normA` / `normB` accumulator of `cosineSimilarity`: `Σ v[i] * v[i]`. -/
def sumSquares (v : List ℝ) : ℝ := (v.map (fun x => x * x)).sum

/-- Model of the module-level `cosineSimilarity` function of
`sqlite-vss.ts`.  It throws (`Except.error`) when the lengths differ;
otherwise it returns `dotProduct / (Math.sqrt(normA) * Math.sqrt(normB))`.
When that divisor is zero the dividend is zero as well (a vector with zero
sum of squares is all-zero, so the dot product is zero) and the JS division
`0 / 0` yields NaN, modelled as `none`. -/
noncomputable def cosineSimilarity (a b : List ℝ) : Except String (Option ℝ) :=
  if a.length ≠ b.length then
    Except.error "Vectors must have same length"
  else
    let den := Real.sqrt (sumSquares a) * Real.sqrt (sumSquares b)
    if den = 0 then Except.ok none
    else Except.ok (some (dotList a b / den))

/-- The `rows.map(...)` step of `search`: score every row against the query,
in row order; the first row whose stored vector length differs from the
query's makes `cosineSimilarity` throw, aborting the whole map. -/
noncomputable def scoreRows (q : List ℝ) : List StoredRow → Except String (List SearchResult)
  | [] => Except.ok []
  | r :: rest =>
    match cosineSimilarity q r.embedding with
    | Except.error e => Except.error e
    | Except.ok s =>
      match scoreRows q rest with
      | Except.error e => Except.error e
      | Except.ok results => Except.ok (⟨r.id, s, r.metadata⟩ :: results)

/-- Order induced by the comparator `(a, b) => b.score - a.score`:
`scoreGe x y` holds when the comparator applied to `(x, y)` returns a value
`≤ 0`, i.e. `x` may stay before `y`.  A NaN comparator result is coerced to
`+0` by ECMA-262, so a `none` (NaN) score ties with everything. -/
def scoreGe : Option ℝ → Option ℝ → Prop
  | none, _ => True
  | some _, none => True
  | some x, some y => y ≤ x

/-- Stable insertion of one result into an already-sorted (descending) list:
the element is placed before the first entry it compares `≥` against.
Since it is inserted ahead of elements that occurred *later* in the original
list, ties keep the original order (stability). -/
noncomputable def sortInsert (r : SearchResult) : List SearchResult → List SearchResult
  | [] => [r]
  | s :: rest => if scoreGe r.score s.score then r :: s :: rest else s :: sortInsert r rest

/-- Model of `results.sort((a, b) => b.score - a.score)` as a stable
insertion sort (identical to the engine's stable sort whenever the
comparator is consistent, i.e. no NaN scores). -/
noncomputable def sortByScoreDesc : List SearchResult → List SearchResult
  | [] => []
  | r :: rest => sortInsert r (sortByScoreDesc rest)

/-- Model of `Array.prototype.slice(0, k)`:
for `k ≥ 0` the first `min k length` elements, for `k < 0` the first
`max (length + k) 0` elements. -/
def jsSlice {α : Type} (l : List α) (k : ℤ) : List α :=
  if k < 0 then l.take (((l.length : ℤ) + k).toNat) else l.take k.toNat

/-- Model of `SqliteVssIndex.upsert`'s `INSERT OR REPLACE` for one row:
the conflicting row (same primary key) is deleted and the fresh row is
appended with a new, maximal rowid. -/
def upsertRow (rows : List StoredRow) (r : StoredRow) : List StoredRow :=
  rows.filter (fun q => q.id != r.id) ++ [r]

/-- Model of `SqliteVssIndex.upsert`.  It throws `IndexError` when the two
arrays have different lengths, *before* touching the table; otherwise it
writes every `(documents[i], embeddings[i])` pair inside one transaction.
No dimension check is performed anywhere (the `dimension` field of the
class is never read). -/
def SqliteVssIndex.upsert (st : SqliteVssIndex) (documents : List IndexDocument)
    (embeddings : List (List ℝ)) : Except IndexError SqliteVssIndex :=
  if documents.length ≠ embeddings.length then
    Except.error ⟨"Documents and embeddings length mismatch"⟩
  else
    Except.ok { st with
      rows := (documents.zip embeddings).foldl
        (fun rows de => upsertRow rows ⟨de.1.id, de.2, de.1.metadata⟩) st.rows }

/-- Model of `SqliteVssIndex.search`: score all rows, sort descending by
score, return the `slice(0, k)` prefix.  Any error thrown while scoring
(the only throwing step) is caught and re-thrown as
`IndexError('Failed to search index')`. -/
noncomputable def SqliteVssIndex.search (st : SqliteVssIndex) (queryEmbedding : List ℝ)
    (k : ℤ) : Except IndexError (List SearchResult) :=
  match scoreRows queryEmbedding st.rows with
  | Except.error _ => Except.error ⟨"Failed to search index"⟩
  | Except.ok results => Except.ok (jsSlice (sortByScoreDesc results) k)

/-- Model of `SqliteVssIndex.delete`: remove the rows of each listed id. -/
def SqliteVssIndex.deleteIds (st : SqliteVssIndex) (ids : List String) : SqliteVssIndex :=
  { st with rows := ids.foldl (fun rows i => rows.filter (fun q => q.id != i)) st.rows }

/-- Model of `SqliteVssIndex.count`: `SELECT COUNT(*)`. -/
def SqliteVssIndex.count (st : SqliteVssIndex) : ℕ := st.rows.length

/-! ## Context selector model (`packages/agent/src/context.ts`) -/

/-- Model of the `SourceItem` fields read by `pickContext`
(`packages/data/src/schema.ts`; the zod schema restricts `source` to
`github | twitter | rss | resume`, but `pickContext` treats it as an opaque
string, so it is modelled as `String`). -/
structure SourceItem where
  id : String
  source : String
  title : Option String
  content : String
  url : Option String
  publishedAt : Option String
  fetchedAt : String

/-- Model of the `ContextItem` interface.  The `date` field is always
assigned (`publishedAt || fetchedAt`), hence `String`. -/
structure ContextItem where
  content : String
  source : String
  title : Option String
  url : Option String
  date : String
deriving DecidableEq

/-- Model of the JS expression `publishedAt || fetchedAt`: an absent *or
empty* (falsy) `publishedAt` falls back to `fetchedAt`. -/
def jsOrDate (publishedAt : Option String) (fetchedAt : String) : String :=
  match publishedAt with
  | none => fetchedAt
  | some p => if p = "" then fetchedAt else p

/-- The options object of `pickContext`; `maxTokensPerSource` defaults to
500 when absent. -/
structure PickOptions where
  maxResults : ℤ
  maxTokensPerSource : Option ℕ

/-- The `for (const result of searchResults)` loop of `pickContext`.
`seen` models the `seenSources` string `Set` as its list of (unique)
elements in insertion order; `sourceCount` is therefore
`Array.from(seenSources).filter((s) => s === sourceKey).length`, the number
of occurrences of the tag in that set — which is 0 or 1, never ≥ 3. -/
def pickContextLoop (sourceItems : List SourceItem) (maxChars : ℕ) :
    List SearchResult → List String → List ContextItem
  | [], _ => []
  | result :: rest, seen =>
    match sourceItems.find? (fun item => item.id == result.id) with
    | none => pickContextLoop sourceItems maxChars rest seen
    | some item =>
      let sourceCount := (seen.filter (fun s => s == item.source)).length
      if sourceCount ≥ 3 then pickContextLoop sourceItems maxChars rest seen
      else
        let seen' := if item.source ∈ seen then seen else seen ++ [item.source]
        let content :=
          if item.content.length > maxChars then item.content.take maxChars ++ "..."
          else item.content
        { content := content, source := item.source, title := item.title,
          url := item.url, date := jsOrDate item.publishedAt item.fetchedAt } ::
          pickContextLoop sourceItems maxChars rest seen'

/-- Model of `pickContext`.  The whole body (search plus loop) runs inside
`try { ... } catch { logger.error(...); return []; }`, so *every* error —
including an `IndexError` bubbling out of `vectorIndex.search` — is caught,
logged and converted into the empty list; nothing propagates.  The `query`
parameter is unused by the code.  `maxChars = maxTokensPerSource * 4`. -/
noncomputable def pickContext (query : String) (queryEmbedding : List ℝ)
    (vectorIndex : SqliteVssIndex) (sourceItems : List SourceItem)
    (options : PickOptions) : List ContextItem :=
  let maxTokensPerSource := options.maxTokensPerSource.getD 500
  match vectorIndex.search queryEmbedding options.maxResults with
  | Except.error _ => []
  | Except.ok searchResults =>
      pickContextLoop sourceItems (maxTokensPerSource * 4) searchResults []

/-! ## Intent classifier model (`packages/agent/src/intent.ts`) -/

/-- The `Intent` union type. -/
inductive Intent where
  | coding
  | career
  | branding
  | general
deriving DecidableEq

/-- `message.toLowerCase()` (ASCII case mapping, which covers every keyword
the classifier tests). -/
def jsToLower (s : String) : String := String.mk (s.data.map Char.toLower)

/-- Character-list prefix test (helper for the substring test). -/
def startsWithChars : List Char → List Char → Bool
  | [], _ => true
  | _ :: _, [] => false
  | a :: as, b :: bs => a == b && startsWithChars as bs

/-- Character-list substring test (helper for the substring test). -/
def containsChars (sub : List Char) : List Char → Bool
  | [] => startsWithChars sub []
  | c :: rest => startsWithChars sub (c :: rest) || containsChars sub rest

/-- Model of `s.includes(sub)`. -/
def jsIncludes (s sub : String) : Bool := containsChars sub.data s.data

/-- Model of `classifyIntent`: lowercase the message, then test the three
keyword groups in source order (coding, then career, then branding) with
short-circuiting `||` chains; fall through to `general`. -/
def classifyIntent (message : String) : Intent :=
  let lower := jsToLower message
  if jsIncludes lower "code" || jsIncludes lower "repo" || jsIncludes lower "github" ||
      jsIncludes lower "project" || jsIncludes lower "programming" ||
      jsIncludes lower "technical" || jsIncludes lower "library" ||
      jsIncludes lower "framework" then
    Intent.coding
  else if jsIncludes lower "job" || jsIncludes lower "career" || jsIncludes lower "resume" ||
      jsIncludes lower "cv" || jsIncludes lower "experience" || jsIncludes lower "work" ||
      jsIncludes lower "role" || jsIncludes lower "position" || jsIncludes lower "hire" ||
      jsIncludes lower "interview" then
    Intent.career
  else if jsIncludes lower "tweet" || jsIncludes lower "twitter" || jsIncludes lower "social" ||
      jsIncludes lower "blog" || jsIncludes lower "article" || jsIncludes lower "post" ||
      jsIncludes lower "brand" || jsIncludes lower "online presence" then
    Intent.branding
  else
    Intent.general

/-- The `Plan` interface of the planner. -/
structure Plan where
  useGithub : Bool
  useRss : Bool
  useResume : Bool
  useTwitter : Bool
  forceFresh : Bool
  maxResults : ℤ
deriving DecidableEq

/-- Model of `needsFreshData`: temporal-recency keyword test. -/
def needsFreshData (message : String) : Bool :=
  let lower := jsToLower message
  jsIncludes lower "latest" || jsIncludes lower "recent" || jsIncludes lower "today" ||
    jsIncludes lower "this week" || jsIncludes lower "refresh" || jsIncludes lower "update"

/-- Model of `makePlan`: derive the intent and the freshness flag, then fill
the per-intent connector flags and `maxResults` from the fixed table. -/
def makePlan (message : String) : Plan :=
  let intent := classifyIntent message
  let forceFresh := needsFreshData message
  match intent with
  | Intent.coding => ⟨true, false, true, false, forceFresh, 15⟩
  | Intent.career => ⟨true, false, true, false, forceFresh, 10⟩
  | Intent.branding => ⟨false, true, false, true, forceFresh, 20⟩
  | Intent.general => ⟨true, true, true, true, forceFresh, 10⟩

/-- The coding keyword set, as listed in the source. -/
def codingKeywords : List String :=
  ["code", "repo", "github", "project", "programming", "technical", "library", "framework"]

/-- The career keyword set, as listed in the source. -/
def careerKeywords : List String :=
  ["job", "career", "resume", "cv", "experience", "work", "role", "position", "hire",
    "interview"]

/-- The branding/social keyword set, as listed in the source. -/
def brandingKeywords : List String :=
  ["tweet", "twitter", "social", "blog", "article", "post", "brand", "online presence"]

/-- Keyword-set view of the classifier's tests: does any keyword of the
set occur in the (already lowercased) message? -/
def matchesAny (keywords : List String) (lower : String) : Bool :=
  keywords.any (fun kw => jsIncludes lower kw)

/-! ## Concrete instances used by the claims -/

/-- The three-vector store of the spec's ranking example (`D = 2`,
vectors inserted in the order `[1,0]`, `[0,1]`, `[1,1]`). -/
def demoStore : SqliteVssIndex :=
  ⟨2, [⟨"a", [1, 0], none⟩, ⟨"b", [0, 1], none⟩, ⟨"c", [1, 1], none⟩]⟩

/-- A source item with tag "A" (diversity-cap scenario). -/
def docA (i : String) : SourceItem := ⟨i, "A", none, "ca", none, none, "2025-01-01"⟩

/-- A source item with tag "B" (diversity-cap scenario). -/
def docB (i : String) : SourceItem := ⟨i, "B", none, "cb", none, none, "2025-01-01"⟩

/-- Five "A" documents followed by two "B" documents. -/
def sevenDocs : List SourceItem :=
  [docA "a1", docA "a2", docA "a3", docA "a4", docA "a5", docB "b1", docB "b2"]

/-- A stored row with the one-dimensional embedding `[1]` (every such row
has cosine similarity 1 against the query `[1]`, so ranking is decided by
insertion order and the five "A" rows rank above the two "B" rows). -/
def rowOf (i : String) : StoredRow := ⟨i, [1], none⟩

/-- Store for the diversity-cap scenario: the five "A" vectors inserted
before the two "B" vectors. -/
def sevenStore : SqliteVssIndex :=
  ⟨768, [rowOf "a1", rowOf "a2", rowOf "a3", rowOf "a4", rowOf "a5", rowOf "b1", rowOf "b2"]⟩

/-- A store holding one two-dimensional vector; searching it with a
one-dimensional query makes `cosineSimilarity` throw. -/
def badStore : SqliteVssIndex := ⟨768, [⟨"a", [1, 0], none⟩]⟩

/-- A store with two one-dimensional entries (negative-`k` scenario). -/
def twoStore : SqliteVssIndex := ⟨768, [⟨"x", [1], none⟩, ⟨"y", [1], none⟩]⟩

/-- A store with a single entry matching `oneDocs` (truncation witness). -/
def oneStore : SqliteVssIndex := ⟨768, [⟨"d1", [1], none⟩]⟩

/-- A single short document (content far below the 2000-character budget). -/
def oneDocs : List SourceItem := [⟨"d1", "github", none, "hello", none, none, "2025-01-01"⟩]

/-! ## Generic lemmas about the sort model -/

lemma scoreGe_of_not_scoreGe {a b : Option ℝ} (h : ¬ scoreGe a b) : scoreGe b a := by
  cases a with
  | none => exact absurd trivial h
  | some x =>
    cases b with
    | none => exact absurd trivial h
    | some y => exact le_of_not_le (by simpa [scoreGe] using h)

lemma scoreGe_trans_some {x y z : ℝ} (h₁ : scoreGe (some x) (some y))
    (h₂ : scoreGe (some y) (some z)) : scoreGe (some x) (some z) := by
  simp only [scoreGe] at *
  linarith

lemma mem_sortInsert {x r : SearchResult} : ∀ {l : List SearchResult},
    x ∈ sortInsert r l ↔ x = r ∨ x ∈ l := by
  intro l
  induction l with
  | nil => simp [sortInsert]
  | cons s rest ih =>
    by_cases h : scoreGe r.score s.score
    · simp [sortInsert, h]
    · simp [sortInsert, h, ih]
      tauto

lemma length_sortInsert (r : SearchResult) : ∀ (l : List SearchResult),
    (sortInsert r l).length = l.length + 1 := by
  intro l
  induction l with
  | nil => simp [sortInsert]
  | cons s rest ih =>
    by_cases h : scoreGe r.score s.score
    · simp [sortInsert, h]
    · simp [sortInsert, h, ih]

lemma length_sortByScoreDesc : ∀ (l : List SearchResult),
    (sortByScoreDesc l).length = l.length := by
  intro l
  induction l with
  | nil => simp [sortByScoreDesc]
  | cons r rest ih => simp [sortByScoreDesc, length_sortInsert, ih]

lemma head?_sortInsert (r : SearchResult) : ∀ (l : List SearchResult),
    (sortInsert r l).head? = some r ∨ (sortInsert r l).head? = l.head? := by
  intro l
  cases l with
  | nil => simp [sortInsert]
  | cons s rest =>
    by_cases h : scoreGe r.score s.score
    · simp [sortInsert, h]
    · simp [sortInsert, h]

lemma chain'_sortInsert {r : SearchResult} : ∀ {l : List SearchResult},
    List.Chain' (fun a b => scoreGe a.score b.score) l →
    List.Chain' (fun a b => scoreGe a.score b.score) (sortInsert r l) := by
  intro l
  induction l with
  | nil => intro _; simp [sortInsert]
  | cons s rest ih =>
    intro h
    rw [List.chain'_cons'] at h
    by_cases hge : scoreGe r.score s.score
    · rw [sortInsert]
      simp only [if_pos hge]
      rw [List.chain'_cons']
      refine ⟨?_, List.chain'_cons'.mpr h⟩
      intro b hb
      simp at hb
      exact hb ▸ hge
    · rw [sortInsert]
      simp only [if_neg hge]
      rw [List.chain'_cons']
      refine ⟨?_, ih h.2⟩
      intro b hb
      rcases head?_sortInsert r rest with hc | hc
      · rw [hc] at hb
        simp at hb
        exact hb ▸ scoreGe_of_not_scoreGe hge
      · rw [hc] at hb
        exact h.1 b hb

lemma chain'_sortByScoreDesc : ∀ (l : List SearchResult),
    List.Chain' (fun a b => scoreGe a.score b.score) (sortByScoreDesc l) := by
  intro l
  induction l with
  | nil => simp [sortByScoreDesc]
  | cons r rest ih => exact chain'_sortInsert ih

lemma chain'_allSome_aux : ∀ (l : List SearchResult) (a : SearchResult),
    List.Chain' (fun x y => scoreGe x.score y.score) (a :: l) →
    (∀ r ∈ a :: l, r.score ≠ none) →
    ∀ b ∈ l, scoreGe a.score b.score := by
  intro l
  induction l with
  | nil => intro a _ _ b hb; simp at hb
  | cons c rest ih =>
    intro a hch hs b hb
    have hac : scoreGe a.score c.score := (List.chain'_cons.mp hch).1
    rcases List.mem_cons.mp hb with hbc | hbr
    · rw [hbc]; exact hac
    · have hcb : scoreGe c.score b.score := by
        refine ih c (List.chain'_cons.mp hch).2 ?_ b hbr
        intro r hr
        exact hs r (List.mem_cons_of_mem a hr)
      obtain ⟨x, hx⟩ := Option.ne_none_iff_exists'.mp (hs a (by simp))
      obtain ⟨y, hy⟩ := Option.ne_none_iff_exists'.mp (hs c (by simp))
      obtain ⟨z, hz⟩ := Option.ne_none_iff_exists'.mp
        (hs b (List.mem_cons_of_mem a (List.mem_cons_of_mem c hbr)))
      rw [hx, hy] at hac
      rw [hy, hz] at hcb
      rw [hx, hz]
      exact scoreGe_trans_some hac hcb

lemma pairwise_of_chain'_allSome : ∀ (l : List SearchResult),
    List.Chain' (fun x y => scoreGe x.score y.score) l →
    (∀ r ∈ l, r.score ≠ none) →
    List.Pairwise (fun x y => scoreGe x.score y.score) l := by
  intro l
  induction l with
  | nil => intro _ _; exact List.Pairwise.nil
  | cons a rest ih =>
    intro hch hs
    refine List.pairwise_cons.mpr ⟨chain'_allSome_aux rest a hch hs, ?_⟩
    refine ih (List.chain'_cons'.mp hch).2 ?_
    intro r hr
    exact hs r (List.mem_cons_of_mem a hr)

lemma filter_sortInsert (u : ℝ) (r : SearchResult) : ∀ (l : List SearchResult),
    (sortInsert r l).filter (fun x => decide (x.score = some u)) =
      if r.score = some u then
        r :: l.filter (fun x => decide (x.score = some u))
      else l.filter (fun x => decide (x.score = some u)) := by
  intro l
  induction l with
  | nil =>
    by_cases h : r.score = some u <;> simp [sortInsert, h]
  | cons s rest ih =>
    by_cases hge : scoreGe r.score s.score
    · rw [sortInsert]
      simp only [if_pos hge]
      by_cases h : r.score = some u <;>
        by_cases h' : s.score = some u <;>
        simp [List.filter_cons, h, h']
    · rw [sortInsert]
      simp only [if_neg hge]
      have hsome : ∃ x y : ℝ, r.score = some x ∧ s.score = some y ∧ x < y := by
        cases hr : r.score with
        | none => rw [hr] at hge; exact absurd trivial hge
        | some x =>
          cases hshape : s.score with
          | none => rw [hr, hshape] at hge; exact absurd trivial hge
          | some y =>
            rw [hr, hshape] at hge
            exact ⟨x, y, rfl, rfl, lt_of_not_le (by simpa [scoreGe] using hge)⟩
      obtain ⟨x, y, hrx, hsy, hxy⟩ := hsome
      by_cases h : r.score = some u
      · have hs' : ¬ (s.score = some u) := by
          rw [hsy]
          rw [hrx] at h
          simp at h
          simp
          intro hyu
          rw [hyu, ← h] at hxy
          exact lt_irrefl x hxy
        simp [List.filter_cons, hs', ih, h]
      · by_cases h' : s.score = some u <;> simp [List.filter_cons, h', ih, h]

lemma filter_sortByScoreDesc (u : ℝ) : ∀ (l : List SearchResult),
    (sortByScoreDesc l).filter (fun x => decide (x.score = some u)) =
      l.filter (fun x => decide (x.score = some u)) := by
  intro l
  induction l with
  | nil => simp [sortByScoreDesc]
  | cons r rest ih =>
    rw [sortByScoreDesc, filter_sortInsert]
    by_cases h : r.score = some u <;> simp [List.filter_cons, h, ih]

/-! ## Generic lemmas about scoring, slicing and upserting -/

lemma scoreRows_ok_length {q : List ℝ} : ∀ {rows : List StoredRow}
    {res : List SearchResult}, scoreRows q rows = Except.ok res →
    res.length = rows.length := by
  intro rows
  induction rows with
  | nil => intro res h; simp [scoreRows] at h; simp [← h]
  | cons r rest ih =>
    intro res h
    rw [scoreRows] at h
    cases hc : cosineSimilarity q r.embedding with
    | error e => rw [hc] at h; exact absurd h (by simp)
    | ok s =>
      rw [hc] at h
      cases hr : scoreRows q rest with
      | error e => rw [hr] at h; exact absurd h (by simp)
      | ok results =>
        rw [hr] at h
        simp at h
        rw [← h]
        simp [ih hr]

lemma length_jsSlice {α : Type} (l : List α) (k : ℤ) :
    (jsSlice l k).length =
      if k < 0 then ((l.length : ℤ) + k).toNat else min k.toNat l.length := by
  rw [jsSlice]
  by_cases h : k < 0
  · rw [if_pos h, if_pos h, List.length_take]
    have : ((l.length : ℤ) + k).toNat ≤ l.length := by omega
    omega
  · rw [if_neg h, if_neg h, List.length_take]

lemma mem_ids_upsertRow {a : String} {rows : List StoredRow} (r : StoredRow)
    (h : a ∈ rows.map StoredRow.id) : a ∈ (upsertRow rows r).map StoredRow.id := by
  rw [upsertRow]
  by_cases har : a = r.id
  · simp [har]
  · obtain ⟨q, hq, hqa⟩ := List.mem_map.mp h
    refine List.mem_map.mpr ⟨q, ?_, hqa⟩
    refine List.mem_append_left _ (List.mem_filter.mpr ⟨hq, ?_⟩)
    simp [hqa, har]

lemma nodup_ids_upsertRow {rows : List StoredRow} (r : StoredRow)
    (h : (rows.map StoredRow.id).Nodup) :
    ((upsertRow rows r).map StoredRow.id).Nodup := by
  rw [upsertRow, List.map_append, List.nodup_append]
  refine ⟨?_, by simp, ?_⟩
  · have hsub : (rows.filter (fun q => q.id != r.id)).map StoredRow.id |>.Sublist
        (rows.map StoredRow.id) := (List.filter_sublist rows).map StoredRow.id
    exact h.sublist hsub
  · intro a ha
    obtain ⟨q, hq, hqa⟩ := List.mem_map.mp ha
    have := (List.mem_filter.mp hq).2
    simp at this ⊢
    rw [← hqa]
    exact this

lemma length_upsertRow_mem {r : StoredRow} : ∀ {rows : List StoredRow},
    (rows.map StoredRow.id).Nodup → r.id ∈ rows.map StoredRow.id →
    (upsertRow rows r).length = rows.length := by
  intro rows
  induction rows with
  | nil => intro _ hm; simp at hm
  | cons q rest ih =>
    intro hnd hm
    rw [List.map_cons, List.nodup_cons] at hnd
    by_cases hqr : q.id = r.id
    · have hrest : rest.filter (fun p => p.id != r.id) = rest := by
        refine List.filter_eq_self.mpr ?_
        intro p hp
        simp only [bne_iff_ne, ne_eq]
        intro hpr
        exact hnd.1 (by rw [hqr, ← hpr]; exact List.mem_map.mpr ⟨p, hp, rfl⟩)
      rw [upsertRow, List.filter_cons]
      have hq : (q.id != r.id) = false := by simp [hqr]
      rw [hq]
      simp [hrest]
    · have hm' : r.id ∈ rest.map StoredRow.id := by
        simp at hm
        rcases hm with h | ⟨a, ha, hai⟩
        · exact absurd h.symm hqr
        · exact List.mem_map.mpr ⟨a, ha, hai⟩
      have hih := ih hnd.2 hm'
      rw [upsertRow, List.filter_cons]
      have hq : (q.id != r.id) = true := by simp [hqr]
      rw [hq]
      rw [upsertRow] at hih
      simp at hih ⊢
      omega

lemma filter_upsertRow_self (rows : List StoredRow) (r : StoredRow) :
    (upsertRow rows r).filter (fun q => q.id == r.id) = [r] := by
  rw [upsertRow, List.filter_append]
  have h1 : (rows.filter (fun q => q.id != r.id)).filter (fun q => q.id == r.id) = [] := by
    refine List.filter_eq_nil_iff.mpr ?_
    intro q hq
    have := (List.mem_filter.mp hq).2
    simp at this ⊢
    exact this
  rw [h1]
  simp

lemma length_upsert_fold : ∀ (pairs : List (IndexDocument × List ℝ)) (rows : List StoredRow),
    (rows.map StoredRow.id).Nodup →
    (∀ p ∈ pairs, p.1.id ∈ rows.map StoredRow.id) →
    (pairs.foldl (fun rows de => upsertRow rows ⟨de.1.id, de.2, de.1.metadata⟩) rows).length
      = rows.length := by
  intro pairs
  induction pairs with
  | nil => intro rows _ _; rfl
  | cons p rest ih =>
    intro rows hnd hmem
    rw [List.foldl_cons]
    have h1 : (upsertRow rows ⟨p.1.id, p.2, p.1.metadata⟩).length = rows.length :=
      length_upsertRow_mem hnd (hmem p (by simp))
    rw [← h1]
    refine ih _ (nodup_ids_upsertRow _ hnd) ?_
    intro q hq
    exact mem_ids_upsertRow _ (hmem q (by simp [hq]))

/-! ## Generic lemmas about the similarity metric -/

lemma sumSquares_nonneg (v : List ℝ) : 0 ≤ sumSquares v := by
  rw [sumSquares]
  refine List.sum_nonneg ?_
  intro x hx
  obtain ⟨y, _, hy⟩ := List.mem_map.mp hx
  rw [← hy]
  exact mul_self_nonneg y

lemma sumSquares_eq_zero_iff : ∀ (v : List ℝ), sumSquares v = 0 ↔ ∀ x ∈ v, x = 0 := by
  intro v
  induction v with
  | nil => simp [sumSquares]
  | cons x rest ih =>
    rw [sumSquares, List.map_cons, List.sum_cons]
    have hx2 : 0 ≤ x * x := mul_self_nonneg x
    have hr : 0 ≤ sumSquares rest := sumSquares_nonneg rest
    rw [sumSquares] at hr
    constructor
    · intro h
      have hx0 : x * x = 0 := by linarith
      have hr0 : ((rest.map fun y => y * y).sum) = 0 := by linarith
      intro y hy
      rcases List.mem_cons.mp hy with hyx | hyr
      · rw [hyx]
        exact mul_self_eq_zero.mp hx0
      · exact (ih.mp (by rw [sumSquares]; exact hr0)) y hyr
    · intro h
      have hx0 : x = 0 := h x (by simp)
      have hr0 : sumSquares rest = 0 := ih.mpr (fun y hy => h y (List.mem_cons_of_mem x hy))
      rw [sumSquares] at hr0
      rw [hx0, hr0]
      ring

lemma den_eq_zero_iff (a b : List ℝ) :
    Real.sqrt (sumSquares a) * Real.sqrt (sumSquares b) = 0 ↔
      ((∀ x ∈ a, x = 0) ∨ (∀ x ∈ b, x = 0)) := by
  rw [mul_eq_zero, Real.sqrt_eq_zero', Real.sqrt_eq_zero']
  rw [← sumSquares_eq_zero_iff a, ← sumSquares_eq_zero_iff b]
  constructor
  · rintro (h | h)
    · exact Or.inl (le_antisymm h (sumSquares_nonneg a))
    · exact Or.inr (le_antisymm h (sumSquares_nonneg b))
  · rintro (h | h)
    · exact Or.inl (le_of_eq h)
    · exact Or.inr (le_of_eq h)

/-! ## Generic lemmas about the context loop and the classifier -/

lemma pickContextLoop_mem (docs : List SourceItem) (maxChars : ℕ) :
    ∀ (results : List SearchResult) (seen : List String) (item : ContextItem),
    item ∈ pickContextLoop docs maxChars results seen →
    ∃ doc ∈ docs, item.source = doc.source ∧
      item.content =
        (if maxChars < doc.content.length then doc.content.take maxChars ++ "..."
         else doc.content) := by
  intro results
  induction results with
  | nil => intro seen item h; simp [pickContextLoop] at h
  | cons result rest ih =>
    intro seen item h
    simp only [pickContextLoop] at h
    split at h
    · exact ih seen item h
    · rename_i it hf
      split at h
      · exact ih seen item h
      · rcases List.mem_cons.mp h with hitem | hrest
        · refine ⟨it, List.mem_of_find?_eq_some hf, ?_, ?_⟩
          · rw [hitem]
          · rw [hitem]
        · exact ih _ item hrest

lemma classifyIntent_eq_keyword_view (m : String) :
    classifyIntent m =
      (if matchesAny codingKeywords (jsToLower m) then Intent.coding
       else if matchesAny careerKeywords (jsToLower m) then Intent.career
       else if matchesAny brandingKeywords (jsToLower m) then Intent.branding
       else Intent.general) := by
  simp only [classifyIntent, matchesAny, codingKeywords, careerKeywords, brandingKeywords,
    List.any_cons, List.any_nil, Bool.or_false, Bool.or_assoc]

/-! ## Evaluation lemmas for the concrete instances -/

lemma demoStore_search_eval :
    demoStore.search [1, 0] 3 =
      Except.ok [⟨"a", some 1, none⟩, ⟨"c", some (1 / Real.sqrt 2), none⟩,
        ⟨"b", some 0, none⟩] := by
  have h2 : (0 : ℝ) < Real.sqrt 2 := Real.sqrt_pos.2 (by norm_num)
  have h2' : (Real.sqrt 2)⁻¹ ≤ 1 := by
    rw [inv_le_one_iff₀]
    right
    calc (1 : ℝ) = Real.sqrt 1 := (Real.sqrt_one).symm
    _ ≤ Real.sqrt 2 := Real.sqrt_le_sqrt (by norm_num)
  have h2'' : ¬ ((Real.sqrt 2)⁻¹ ≤ 0) := not_le.mpr (by positivity)
  have h2ne : ¬ (Real.sqrt 1 * Real.sqrt 2 = 0) := by
    rw [Real.sqrt_one, one_mul]
    exact h2.ne'
  norm_num [SqliteVssIndex.search, demoStore, scoreRows, cosineSimilarity, sumSquares, dotList,
    sortByScoreDesc, sortInsert, scoreGe, jsSlice, h2', h2'', h2ne]

lemma sevenStore_search_eval :
    sevenStore.search [1] 5 =
      Except.ok [⟨"a1", some 1, none⟩, ⟨"a2", some 1, none⟩, ⟨"a3", some 1, none⟩,
        ⟨"a4", some 1, none⟩, ⟨"a5", some 1, none⟩] := by
  have htake : ∀ l : List SearchResult, List.take (Int.toNat 5) l = List.take 5 l :=
    fun l => rfl
  norm_num [SqliteVssIndex.search, sevenStore, rowOf, scoreRows, cosineSimilarity,
    sumSquares, dotList, sortByScoreDesc, sortInsert, scoreGe, jsSlice, htake]

lemma badStore_search_eval :
    badStore.search [1] 10 = Except.error ⟨"Failed to search index"⟩ := by
  simp [SqliteVssIndex.search, badStore, scoreRows, cosineSimilarity]

lemma twoStore_search_eval :
    twoStore.search [1] (-1) = Except.ok [⟨"x", some 1, none⟩] := by
  norm_num [SqliteVssIndex.search, twoStore, scoreRows, cosineSimilarity,
    sumSquares, dotList, sortByScoreDesc, sortInsert, scoreGe, jsSlice]

lemma oneStore_search_eval :
    oneStore.search [1] 10 = Except.ok [⟨"d1", some 1, none⟩] := by
  norm_num [SqliteVssIndex.search, oneStore, scoreRows, cosineSimilarity,
    sumSquares, dotList, sortByScoreDesc, sortInsert, scoreGe, jsSlice]

lemma oneStore_pickContext_eval :
    pickContext "q" [1] oneStore oneDocs ⟨10, none⟩ =
      [⟨"hello", "github", none, none, "2025-01-01"⟩] := by
  simp only [pickContext, Option.getD]
  rw [oneStore_search_eval]
  decide

/-! ## Claim theorems -/

/-- Claim C1: the claim says a store of dimension `D` rejects every upsert
whose vector length differs from `D` with a `DimensionMismatch` error and
stores nothing.  The code never reads the `dimension` field: upserting a
length-1 vector into a dimension-768 store succeeds and persists the
mismatched entry verbatim (neither truncated nor padded), and a search with
a mismatched query on an (empty) store succeeds as well. -/
theorem upsert_stores_mismatched_vector :
    SqliteVssIndex.upsert ⟨768, []⟩ [⟨"a", "some text", none⟩] [[(1 : ℝ)]] =
      Except.ok ⟨768, [⟨"a", [(1 : ℝ)], none⟩]⟩ ∧
    [(1 : ℝ)].length ≠ 768 ∧
    SqliteVssIndex.search ⟨768, []⟩ [(1 : ℝ)] 5 = Except.ok [] :=
  ⟨rfl, by decide, rfl⟩

/-- Claim C2: the claim (and the code's own comment) says at most 3
fragments per source tag are retained.  `sourceCount` is computed from a
`Set`, hence never exceeds 1 and the `>= 3` skip never fires: with five
"A"-tagged candidates ranked above two "B"-tagged ones and `maxResults=5`,
`pickContext` returns all five "A" fragments. -/
theorem pickContext_no_diversity_cap :
    (pickContext "q" [1] sevenStore sevenDocs ⟨5, none⟩).map ContextItem.source =
      ["A", "A", "A", "A", "A"] := by
  simp only [pickContext, Option.getD]
  rw [sevenStore_search_eval]
  decide

/-- Claim C3 (counterexample): a dimension-mismatch error raised by the
store's `search` does *not* propagate out of `pickContext`: the search on
`badStore` fails with an `IndexError`, yet `pickContext` on the same inputs
returns the empty list. -/
theorem pickContext_error_not_propagated :
    badStore.search [1] 10 = Except.error ⟨"Failed to search index"⟩ ∧
    pickContext "q" [1] badStore [] ⟨10, none⟩ = [] := by
  refine ⟨badStore_search_eval, ?_⟩
  simp only [pickContext, Option.getD]
  rw [badStore_search_eval]

/-- Claim C3 (amended): `pickContext` never throws at all — a search error
is caught (logged) and turned into the empty list, and an empty search
result also yields the empty list. -/
theorem pickContext_total_and_swallowing :
    (∀ (query : String) (qe : List ℝ) (st : SqliteVssIndex) (docs : List SourceItem)
      (opts : PickOptions) (err : IndexError),
      st.search qe opts.maxResults = Except.error err →
      pickContext query qe st docs opts = []) ∧
    (∀ (query : String) (qe : List ℝ) (st : SqliteVssIndex) (docs : List SourceItem)
      (opts : PickOptions),
      st.search qe opts.maxResults = Except.ok [] →
      pickContext query qe st docs opts = []) := by
  constructor
  · intro query qe st docs opts err h
    simp only [pickContext, Option.getD]
    rw [h]
  · intro query qe st docs opts h
    simp only [pickContext, Option.getD]
    rw [h]
    rfl

/-- Claim C3 (witness): the amended theorem applied at a concrete store
whose search fails. -/
theorem pickContext_total_and_swallowing_witness :
    pickContext "q" [1] badStore [] ⟨10, none⟩ = [] :=
  pickContext_total_and_swallowing.1 "q" [1] badStore [] ⟨10, none⟩
    ⟨"Failed to search index"⟩ badStore_search_eval

/-- Claim C4 (counterexample): the claim says `search(q, k)` is empty for
every `k ≤ 0`.  With `k = -1` on a two-entry store, JavaScript
`slice(0, -1)` keeps all but the last element: one result is returned. -/
theorem search_negative_k_not_empty :
    twoStore.search [1] (-1) = Except.ok [⟨"x", some 1, none⟩] ∧
    (Except.ok [⟨"x", some 1, none⟩] ≠
      (Except.ok [] : Except IndexError (List SearchResult))) :=
  ⟨twoStore_search_eval, by simp⟩

/-- Claim C4 (amended): a successful `search(q, k)` returns exactly
`min(k, count())` results when `k ≥ 0`, and `max(count() + k, 0)` results
when `k < 0` (JavaScript `slice` semantics), not the empty list. -/
theorem search_result_count :
    ∀ (st : SqliteVssIndex) (q : List ℝ) (k : ℤ) (res : List SearchResult),
    st.search q k = Except.ok res →
    res.length = if k < 0 then ((st.count : ℤ) + k).toNat else min k.toNat st.count := by
  intro st q k res h
  rw [SqliteVssIndex.search] at h
  cases hs : scoreRows q st.rows with
  | error e => rw [hs] at h; exact absurd h (by simp)
  | ok results =>
    rw [hs] at h
    simp only [Except.ok.injEq] at h
    rw [← h, length_jsSlice, length_sortByScoreDesc, scoreRows_ok_length hs]
    rfl

/-- Claim C4 (witness): the amended count formula at the concrete
negative-`k` input. -/
theorem search_result_count_witness :
    ([⟨"x", some 1, none⟩] : List SearchResult).length =
      if (-1 : ℤ) < 0 then ((twoStore.count : ℤ) + (-1)).toNat
      else min (-1 : ℤ).toNat twoStore.count :=
  search_result_count twoStore [1] (-1) [⟨"x", some 1, none⟩] twoStore_search_eval

/-- Claim C5: search results are sorted in descending score order (for
NaN-free scores, i.e. whenever the scores denote real cosine values), ties
are broken by row order (the sort is stable: filtering any fixed score
value out of the sorted list returns those results in their original row
order), and the spec's concrete example evaluates exactly as stated:
query `[1,0]` against `[1,0]`, `[0,1]`, `[1,1]` returns `[1,0]` with score
1, then `[1,1]` with score `1/√2`, then `[0,1]` with score 0. -/
theorem search_sorted_stable_ranked :
    (∀ (st : SqliteVssIndex) (q : List ℝ) (k : ℤ) (res : List SearchResult),
      st.search q k = Except.ok res → (∀ r ∈ res, r.score ≠ none) →
      List.Pairwise (fun a b : SearchResult => scoreGe a.score b.score) res) ∧
    (∀ (u : ℝ) (l : List SearchResult),
      (sortByScoreDesc l).filter (fun x => decide (x.score = some u)) =
        l.filter (fun x => decide (x.score = some u))) ∧
    demoStore.search [1, 0] 3 =
      Except.ok [⟨"a", some 1, none⟩, ⟨"c", some (1 / Real.sqrt 2), none⟩,
        ⟨"b", some 0, none⟩] := by
  refine ⟨?_, filter_sortByScoreDesc, demoStore_search_eval⟩
  intro st q k res h hsome
  rw [SqliteVssIndex.search] at h
  cases hs : scoreRows q st.rows with
  | error e => rw [hs] at h; exact absurd h (by simp)
  | ok results =>
    rw [hs] at h
    simp only [Except.ok.injEq] at h
    have hch : List.Chain' (fun a b => scoreGe a.score b.score) res := by
      rw [← h, jsSlice]
      by_cases hk : k < 0
      · rw [if_pos hk]
        exact (chain'_sortByScoreDesc results).take _
      · rw [if_neg hk]
        exact (chain'_sortByScoreDesc results).take _
    exact pairwise_of_chain'_allSome res hch hsome

/-- Claim C5 (witness): the sortedness statement applied to the concrete
ranking example. -/
theorem search_sorted_stable_ranked_witness :
    List.Pairwise (fun a b : SearchResult => scoreGe a.score b.score)
      ([⟨"a", some 1, none⟩, ⟨"c", some (1 / Real.sqrt 2), none⟩,
        ⟨"b", some 0, none⟩] : List SearchResult) :=
  search_sorted_stable_ranked.1 demoStore [1, 0] 3 _ demoStore_search_eval (by simp)

/-- Claim C6: upserting the same id twice keeps exactly one row under that
id, holding the vector (and metadata) of the later upsert; and an upsert
whose ids are all already present leaves `count()` unchanged (on a store
with unique ids, which every store built by `upsert` has). -/
theorem upsert_replace_semantics :
    (∀ (st : SqliteVssIndex) (d₁ d₂ : IndexDocument) (v₁ v₂ : List ℝ)
      (st₁ st₂ : SqliteVssIndex), d₁.id = d₂.id →
      SqliteVssIndex.upsert st [d₁] [v₁] = Except.ok st₁ →
      SqliteVssIndex.upsert st₁ [d₂] [v₂] = Except.ok st₂ →
      st₂.rows.filter (fun r => r.id == d₁.id) = [⟨d₂.id, v₂, d₂.metadata⟩]) ∧
    (∀ (st : SqliteVssIndex) (docs : List IndexDocument) (embs : List (List ℝ))
      (st' : SqliteVssIndex), (st.rows.map StoredRow.id).Nodup →
      (∀ d ∈ docs, d.id ∈ st.rows.map StoredRow.id) →
      SqliteVssIndex.upsert st docs embs = Except.ok st' →
      st'.count = st.count) := by
  constructor
  · intro st d₁ d₂ v₁ v₂ st₁ st₂ hid _ h₂
    have e₂ : SqliteVssIndex.upsert st₁ [d₂] [v₂] =
        Except.ok { st₁ with rows := upsertRow st₁.rows ⟨d₂.id, v₂, d₂.metadata⟩ } := rfl
    have hst₂ : { st₁ with rows := upsertRow st₁.rows ⟨d₂.id, v₂, d₂.metadata⟩ } = st₂ :=
      Except.ok.inj (e₂.symm.trans h₂)
    rw [← hst₂, hid]
    exact filter_upsertRow_self st₁.rows ⟨d₂.id, v₂, d₂.metadata⟩
  · intro st docs embs st' hnd hmem h
    rw [SqliteVssIndex.upsert] at h
    by_cases hlen : docs.length ≠ embs.length
    · rw [if_pos hlen] at h
      exact absurd h (by simp)
    · rw [if_neg hlen] at h
      have hst' : _ = st' := Except.ok.inj h
      rw [← hst']
      refine length_upsert_fold _ _ hnd ?_
      intro p hp
      exact hmem p.1 (List.of_mem_zip hp).1

/-- Claim C6 (witness): replacing the single row of a one-row store — one
row remains, carrying the later vector, and the count is unchanged. -/
theorem upsert_replace_semantics_witness :
    (SqliteVssIndex.mk 768 [StoredRow.mk "a" [(2 : ℝ)] none]).rows.filter
        (fun r => r.id == "a") = [⟨"a", [(2 : ℝ)], none⟩] ∧
    (SqliteVssIndex.mk 768 [StoredRow.mk "a" [(2 : ℝ)] none]).count =
      (SqliteVssIndex.mk 768 [StoredRow.mk "a" [(1 : ℝ)] none]).count :=
  ⟨upsert_replace_semantics.1 ⟨768, []⟩ ⟨"a", "t", none⟩ ⟨"a", "t2", none⟩
      [(1 : ℝ)] [(2 : ℝ)] _ _ rfl rfl rfl,
    upsert_replace_semantics.2 ⟨768, [⟨"a", [(1 : ℝ)], none⟩]⟩ [⟨"a", "t2", none⟩]
      [[(2 : ℝ)]] _ (by simp) (by simp) rfl⟩

/-- Claim C7 (counterexample): the claim says an all-zero vector makes the
similarity either 0 or an error.  The code divides `0 / 0` and returns NaN
(modelled `none`), which is neither an error nor the value 0. -/
theorem cosine_zero_vector_nan :
    cosineSimilarity [(0 : ℝ), 0] [1, 0] = Except.ok none ∧
    (Except.ok none ≠ (Except.ok (some (0 : ℝ)) : Except String (Option ℝ))) := by
  constructor
  · simp [cosineSimilarity, sumSquares, dotList]
  · simp

/-- Claim C7 (amended): for equal-length vectors the similarity is NaN
(`none`) precisely when one of the vectors is all-zero; it is neither an
error nor 0 in that case, and a real value otherwise. -/
theorem cosine_nan_iff_zero_vector :
    ∀ (a b : List ℝ), a.length = b.length →
    (cosineSimilarity a b = Except.ok none ↔
      ((∀ x ∈ a, x = 0) ∨ (∀ x ∈ b, x = 0))) := by
  intro a b h
  rw [cosineSimilarity]
  rw [if_neg (by simp [h])]
  by_cases hd : Real.sqrt (sumSquares a) * Real.sqrt (sumSquares b) = 0
  · rw [if_pos hd]
    exact iff_of_true rfl ((den_eq_zero_iff a b).mp hd)
  · rw [if_neg hd]
    exact iff_of_false (by simp) (fun hz => hd ((den_eq_zero_iff a b).mpr hz))

/-- Claim C7 (witness): the amended characterization at the concrete pair
`[0]`, `[1]`. -/
theorem cosine_nan_iff_zero_vector_witness :
    cosineSimilarity [(0 : ℝ)] [(1 : ℝ)] = Except.ok none :=
  (cosine_nan_iff_zero_vector [(0 : ℝ)] [(1 : ℝ)] rfl).mpr (Or.inl (by simp))

/-- Claim C8 (counterexample): the claim says
`classifyIntent("Help me write a cover letter") = "career"`.  No career
keyword (`job`, `career`, `resume`, `cv`, `experience`, `work`, `role`,
`position`, `hire`, `interview`) occurs in that message, so the code
returns `general`. -/
theorem cover_letter_is_general :
    classifyIntent "Help me write a cover letter" = Intent.general ∧
    Intent.general ≠ Intent.career :=
  ⟨by decide, by decide⟩

/-- Claim C8 (amended): `classifyIntent` is total, tests the lowercased
message against the coding, career and branding keyword sets in that fixed
priority order with short-circuiting, returns `general` when nothing
matches; `"Can you review my latest repo?"` is coding, `"hello"` is
general — and `"Help me write a cover letter"` is general (not career). -/
theorem classify_priority_and_examples :
    (∀ m : String, classifyIntent m =
      (if matchesAny codingKeywords (jsToLower m) then Intent.coding
       else if matchesAny careerKeywords (jsToLower m) then Intent.career
       else if matchesAny brandingKeywords (jsToLower m) then Intent.branding
       else Intent.general)) ∧
    classifyIntent "Can you review my latest repo?" = Intent.coding ∧
    classifyIntent "Help me write a cover letter" = Intent.general ∧
    classifyIntent "hello" = Intent.general :=
  ⟨classifyIntent_eq_keyword_view, by decide, by decide, by decide⟩

/-- Claim C9: with the default budget (`maxTokensPerSource` absent, hence
500, i.e. 2000 characters) every fragment selected by `pickContext` comes
from a document whose content it reproduces: cut at exactly 2000 characters
plus the `"..."` marker when longer than 2000, unmodified otherwise. -/
theorem pickContext_truncation :
    ∀ (query : String) (qe : List ℝ) (st : SqliteVssIndex) (docs : List SourceItem)
      (maxR : ℤ) (item : ContextItem),
    item ∈ pickContext query qe st docs ⟨maxR, none⟩ →
    ∃ doc ∈ docs,
      (2000 < doc.content.length → item.content = doc.content.take 2000 ++ "...") ∧
      (doc.content.length ≤ 2000 → item.content = doc.content) := by
  intro query qe st docs maxR item h
  simp only [pickContext, Option.getD] at h
  cases hs : (SqliteVssIndex.search st qe (PickOptions.mk maxR none).maxResults) with
  | error e =>
    rw [hs] at h
    simp at h
  | ok results =>
    rw [hs] at h
    obtain ⟨doc, hdoc, _, hcontent⟩ := pickContextLoop_mem docs (500 * 4) results [] item h
    refine ⟨doc, hdoc, ?_, ?_⟩
    · intro hlen
      rw [hcontent, if_pos hlen]
    · intro hlen
      rw [hcontent, if_neg (by omega)]

/-- Claim C9 (witness): the truncation statement at a concrete selection
whose document is 5 characters long (returned unmodified). -/
theorem pickContext_truncation_witness :
    (⟨"hello", "github", none, none, "2025-01-01"⟩ : ContextItem) ∈
      pickContext "q" [1] oneStore oneDocs ⟨10, none⟩ ∧
    ∃ doc ∈ oneDocs,
      (2000 < doc.content.length →
        (⟨"hello", "github", none, none, "2025-01-01"⟩ : ContextItem).content =
          doc.content.take 2000 ++ "...") ∧
      (doc.content.length ≤ 2000 →
        (⟨"hello", "github", none, none, "2025-01-01"⟩ : ContextItem).content =
          doc.content) :=
  ⟨by rw [oneStore_pickContext_eval]; exact List.mem_singleton.mpr rfl,
    pickContext_truncation "q" [1] oneStore oneDocs 10 _
      (by rw [oneStore_pickContext_eval]; exact List.mem_singleton.mpr rfl)⟩

/-- Claim C10: when the documents and embeddings arrays differ in length,
`upsert` fails with the `IndexError` length-mismatch message; the guard
runs before any write is prepared, so no entry of the batch is persisted
(the call produces no new store state). -/
theorem upsert_length_mismatch_error :
    ∀ (st : SqliteVssIndex) (docs : List IndexDocument) (embs : List (List ℝ)),
    docs.length ≠ embs.length →
    SqliteVssIndex.upsert st docs embs =
      Except.error ⟨"Documents and embeddings length mismatch"⟩ := by
  intro st docs embs h
  rw [SqliteVssIndex.upsert, if_pos h]

/-- Claim C10 (witness): one document with an empty embeddings array. -/
theorem upsert_length_mismatch_error_witness :
    ([⟨"a", "t", none⟩] : List IndexDocument).length ≠
      ([] : List (List ℝ)).length ∧
    SqliteVssIndex.upsert ⟨768, []⟩ [⟨"a", "t", none⟩] [] =
      Except.error ⟨"Documents and embeddings length mismatch"⟩ :=
  ⟨by decide, upsert_length_mismatch_error ⟨768, []⟩ [⟨"a", "t", none⟩] [] (by decide)⟩

end YouAgent
